import Mathlib

/-!
Verification of the chati.dev pipeline orchestration core against its
natural-language specification.  The definitions below are a shallow
embedding of the JavaScript sources: pure functions become Lean
functions, object records become structures, and nondeterministic
inputs (clock readings, the injected executor) become explicit
parameters.  Components whose implementation file is absent from the
repository snapshot (only their tests or callers are present) are
modelled from the specification and marked as such in their doc
comments.
-/

namespace ChatiDev

/-! ## String helpers (substring and prefix tests used by the sources) -/

/-- Boolean test that `p` is a prefix of `s`, on the underlying
character lists.  Embeds JavaScript `s.startsWith(p)`. -/
def strStartsWith (s p : String) : Bool :=
  p.data.isPrefixOf s.data

/-- Boolean substring test on character lists.
Embeds JavaScript `hay.includes(needle)`. -/
def listHasInfix (hay needle : List Char) : Bool :=
  match hay with
  | [] => needle.isEmpty
  | _ :: t => needle.isPrefixOf hay || listHasInfix t needle

/-- Lower-casing of a string, character by character.
Embeds JavaScript `s.toLowerCase()` for the ASCII strings the gate
module compares. -/
def strLower (s : String) : String :=
  String.mk (s.data.map Char.toLower)

/-- Substring test after lower-casing, embedding
`w.toLowerCase().includes('critical')` style checks. -/
def strContainsLower (w needle : String) : Bool :=
  listHasInfix (strLower w).data needle.data

/-! ## Quality Gate Evaluator (src/packages/chati-dev/src/gates/gate-base.js) -/

/-- Verdict constants from `GateVerdict` in gate-base.js. -/
def verdictApproved : String := "approved"

/-- Verdict constant `GateVerdict.NEEDS_REVISION`. -/
def verdictNeedsRevision : String := "needs_revision"

/-- Verdict constant `GateVerdict.BLOCKED`. -/
def verdictBlocked : String := "blocked"

/-- Embedding of `determineVerdict(score, threshold, hasCriticalBlocker)`
from gate-base.js lines 31-36. -/
def determineVerdict (score threshold : Int) (hasCriticalBlocker : Bool) : String :=
  if hasCriticalBlocker then verdictBlocked
  else if score ≥ threshold then verdictApproved
  else if score ≥ threshold - 5 then verdictNeedsRevision
  else verdictBlocked

/-- Result of the subclass hook `_validateEvidence(evidence)`:
`{ score, criteriaResults, allCriteria, warnings }`. -/
structure Validation where
  score : Int
  criteriaResults : List String
  allCriteria : List String
  warnings : List String

/-- Modelled from the spec: the `autonomous-gate.js` module
(`evaluateGate`, `getGateThreshold`, `resolveGateAction`) is not in the
repository snapshot, so its outputs are abstracted as parameters: the
score and result returned by `evaluateGate`, the action string from
`resolveGateAction`, and the threshold from `getGateThreshold`. -/
structure AutonomyDeps where
  gateScore : Int
  gateRes : String
  action : String
  threshold : Int

/-- The object returned by `GateBase.evaluate`.  `verdict` is optional
because the human-in-the-loop branch of the source returns an object
with no `verdict` field. -/
structure GateEvalResult where
  gateId : String
  gateName : String
  result : String
  verdict : Option String
  score : Int
  recommendation : String
  canProceed : Bool
  warnings : List String

/-- Detection of a critical blocker in gate-base.js line 101:
`warnings.some(w => w.toLowerCase().includes('critical'))`. -/
def hasCriticalWarning (warnings : List String) : Bool :=
  warnings.any (fun w => strContainsLower w "critical")

/-- Embedding of `GateBase.evaluate(projectDir, mode)` from
gate-base.js lines 79-139.  Evidence collection and validation are the
subclass hooks, so `validation` is a parameter; the autonomous-gate
module's outputs are abstracted in `deps`. -/
def gateEvaluate (gid gname : String) (deps : AutonomyDeps) (mode : String)
    (validation : Validation) : GateEvalResult :=
  if mode = "autonomous" then
    let hasCriticalBlocker := hasCriticalWarning validation.warnings
    let verdict := determineVerdict deps.gateScore deps.threshold hasCriticalBlocker
    { gateId := gid
      gateName := gname
      result := deps.gateRes
      verdict := some verdict
      score := deps.gateScore
      recommendation := deps.action
      canProceed := verdict == verdictApproved
      warnings := validation.warnings }
  else
    { gateId := gid
      gateName := gname
      result := "review"
      verdict := none
      score := validation.score
      recommendation :=
        if validation.score ≥ deps.threshold then
          "Recommend approval — criteria met."
        else
          "Recommend review — score " ++ toString validation.score ++
            " below threshold " ++ toString deps.threshold ++ "."
      canProceed := false
      warnings := validation.warnings }

/-! ## LogBuffer (src/packages/chati-dev/src/preview/log-buffer.js) -/

/-- Trimming of surrounding whitespace on the character list,
embedding JavaScript `line.trim()`. -/
def strTrim (s : String) : String :=
  String.mk (((s.data.dropWhile Char.isWhitespace).reverse.dropWhile Char.isWhitespace).reverse)

/-- A JavaScript value passed to `LogBuffer.append`: either a string
or any non-string value (the source checks `typeof line !== 'string'`
and ignores the latter). -/
inductive JsVal where
  | str (s : String)
  | nonStr
deriving DecidableEq

/-- One buffered log line: `{ line, stream, timestamp }` as pushed by
`LogBuffer.append`. -/
structure LogEntry where
  line : String
  stream : String
  timestamp : Nat
deriving DecidableEq

/-- The circular log buffer's state: the private `#lines` array and
the `#maxLines` capacity. -/
structure LogBuffer where
  lines : List LogEntry
  maxLines : Nat
deriving DecidableEq

/-- Default capacity of the constructor, `maxLines = 200`. -/
def defaultMaxLines : Nat := 200

/-- A fresh buffer as built by `new LogBuffer(maxLines)`. -/
def LogBuffer.empty (maxLines : Nat) : LogBuffer :=
  { lines := [], maxLines := maxLines }

/-- Embedding of `LogBuffer.append(line, stream)` from
log-buffer.js lines 27-40: ignore non-strings, push the trimmed line
with stream and timestamp, then shift the oldest entry when the length
exceeds capacity.  The `Date.now()` reading is the `now` parameter. -/
def LogBuffer.append (buf : LogBuffer) (line : JsVal) (stream : String) (now : Nat) :
    LogBuffer :=
  match line with
  | .nonStr => buf
  | .str s =>
    let pushed := buf.lines ++ [{ line := strTrim s, stream := stream, timestamp := now }]
    if buf.maxLines < pushed.length then
      { lines := pushed.tail, maxLines := buf.maxLines }
    else
      { lines := pushed, maxLines := buf.maxLines }

/-- Embedding of `LogBuffer.getAll()`. -/
def LogBuffer.getAll (buf : LogBuffer) : List LogEntry :=
  buf.lines

/-- Embedding of the `size` getter. -/
def LogBuffer.size (buf : LogBuffer) : Nat :=
  buf.lines.length

/-- A whole sequence of `append` calls, in order.  Each element gives
the value, the stream tag and the clock reading of one call. -/
def LogBuffer.appendAll (buf : LogBuffer) (inputs : List (JsVal × String × Nat)) :
    LogBuffer :=
  inputs.foldl (fun b i => b.append i.1 i.2.1 i.2.2) buf

/-- The entries a sequence of `append` calls would produce if the
buffer had unbounded capacity: one trimmed entry per string input, in
call order; non-string inputs contribute nothing. -/
def entriesOf (inputs : List (JsVal × String × Nat)) : List LogEntry :=
  inputs.filterMap (fun i =>
    match i.1 with
    | .str s => some { line := strTrim s, stream := i.2.1, timestamp := i.2.2 }
    | .nonStr => none)

/-- The suffix of the most recent `m` elements of a list (all of them
when fewer than `m` exist). -/
def lastN (m : Nat) (l : List LogEntry) : List LogEntry :=
  l.drop (l.length - m)

/-! ## Pipeline State Machine (src/orchestrator/pipeline-manager.js)

The implementation file is not in the repository snapshot; only its
test suite (src/unnamed/part_002) is.  The definitions below are
modelled from the specification (spec.md §4.1), with the concrete
phase and agent rosters taken from the constants the tests assert
(`PIPELINE_PHASES = [discover, plan, build, deploy]`, greenfield
versus brownfield first discovery agent, plan ends at `qa-planning`,
build is `dev` then `qa-implementation`, deploy is `devops`). -/

/-- Modelled from the spec: the ordered closed set of phases,
`PIPELINE_PHASES`. -/
def PIPELINE_PHASES : List String := ["discover", "plan", "build", "deploy"]

/-- Modelled from the spec: the phase score threshold (95) used at
gating agents. -/
def PHASE_SCORE_THRESHOLD : Nat := 95

/-- Modelled from the spec: the agents of each phase in roster order;
the discovery roster depends on the project-kind flag. -/
def phaseAgents (isGreenfield : Bool) (phase : String) : List String :=
  if phase = "discover" then
    [if isGreenfield then "greenfield-wu" else "brownfield-wu"]
  else if phase = "plan" then
    ["brief", "detail", "architect", "ux", "phases", "tasks", "qa-planning"]
  else if phase = "build" then
    ["dev", "qa-implementation"]
  else if phase = "deploy" then
    ["devops"]
  else
    []

/-- Modelled from the spec: the gating agent that closes each gated
phase (`qa-planning` for plan, `qa-implementation` for build). -/
def gatingAgent (phase : String) : Option String :=
  if phase = "plan" then some "qa-planning"
  else if phase = "build" then some "qa-implementation"
  else none

/-- Modelled from the spec: the phase that follows the given one in
`PIPELINE_PHASES`. -/
def nextPhase (phase : String) : Option String :=
  if phase = "discover" then some "plan"
  else if phase = "plan" then some "build"
  else if phase = "build" then some "deploy"
  else none

/-- Per-agent record `{status, score, startedAt, completedAt}` of
`PipelineState.agents`.  Clock readings are abstract `Nat` ticks. -/
structure AgentRec where
  status : String
  score : Option Nat
  startedAt : Option Nat
  completedAt : Option Nat
deriving DecidableEq

/-- One `history` entry `{agent, action, score?, timestamp}`. -/
structure HistoryEntry where
  agent : String
  action : String
  score : Option Nat
  timestamp : Nat
deriving DecidableEq

/-- One `modeTransitions` entry `{from, to, trigger, timestamp}`.  The
`from` field is named `src` because `from` is reserved in Lean. -/
structure ModeTransition where
  src : String
  dst : String
  trigger : String
  timestamp : Nat
deriving DecidableEq

/-- Modelled from the spec: the authoritative `PipelineState` session
record of spec.md §3. -/
structure PipelineState where
  phase : String
  isGreenfield : Bool
  agents : List (String × AgentRec)
  completedAgents : List String
  currentAgent : Option String
  history : List HistoryEntry
  modeTransitions : List ModeTransition
  startedAt : Nat
  completedAt : Option Nat
deriving DecidableEq

/-- Update of the record stored under `agentId` in the agents map;
missing keys are left untouched. -/
def updateAgent (agents : List (String × AgentRec)) (agentId : String)
    (f : AgentRec → AgentRec) : List (String × AgentRec) :=
  agents.map (fun p => if p.1 = agentId then (p.1, f p.2) else p)

/-- Modelled from the spec: `initPipeline(config)` — every known agent
`pending`, phase set to the initial phase, roster picked by the
project-kind flag. -/
def initPipeline (isGreenfield : Bool) (now : Nat) : PipelineState :=
  { phase := "discover"
    isGreenfield := isGreenfield
    agents :=
      (PIPELINE_PHASES.flatMap (phaseAgents isGreenfield)).map
        (fun a => (a, { status := "pending", score := none,
                        startedAt := none, completedAt := none }))
    completedAgents := []
    currentAgent := none
    history := []
    modeTransitions := []
    startedAt := now
    completedAt := none }

/-- Modelled from the spec: step 1 of `advancePipeline` — mark the
agent completed with the result score, append it to `completedAgents`
and to `history`. -/
def markCompleted (st : PipelineState) (agentId : String) (score : Option Nat)
    (now : Nat) : PipelineState :=
  { st with
      agents := updateAgent st.agents agentId
        (fun r => { r with status := "completed", score := score,
                           completedAt := some now })
      completedAgents := st.completedAgents ++ [agentId]
      history := st.history ++
        [{ agent := agentId, action := "completed", score := score,
           timestamp := now }] }

/-- The first roster entry strictly after `agentId` in a phase list. -/
def nextAfter (roster : List String) (agentId : String) : Option String :=
  match roster with
  | [] => none
  | a :: rest => if a = agentId then rest.head? else nextAfter rest agentId

/-- Result record of `advancePipeline` and `confirmPreview`:
`{state, nextAction, nextAgent, needsModeSwitch, previewContext}`.
`previewContext` carries the `qaScore` field when present. -/
structure AdvanceResult where
  state : PipelineState
  nextAction : String
  nextAgent : Option String
  needsModeSwitch : Bool
  previewContext : Option Nat
deriving DecidableEq

/-- Modelled from the spec: `advancePipeline(state, agentId, result)`
following spec.md §4.1 steps 1-5.  The completing agent is first
marked completed; if roster order leaves more agents in the current
phase the pipeline continues; the deployment phase's terminal agent
completes the pipeline; a gating agent is scored against the phase
threshold (95), advancing the phase on success — except the
implementation (build) phase, whose passing gate returns
`user_preview` with `previewContext.qaScore` and a null
`currentAgent`; a failing gate returns `wait`.  The spec leaves the
discovery phase boundary unspecified; the model returns `wait` there,
which no claim exercises. -/
def advancePipeline (st : PipelineState) (agentId : String) (score : Option Nat)
    (now : Nat) : AdvanceResult :=
  let st1 := markCompleted st agentId score now
  match nextAfter (phaseAgents st.isGreenfield st.phase) agentId with
  | some nxt =>
      { state := { st1 with currentAgent := some nxt }
        nextAction := "continue"
        nextAgent := some nxt
        needsModeSwitch := false
        previewContext := none }
  | none =>
      if st.phase = "deploy" then
        { state := { st1 with currentAgent := none, completedAt := some now }
          nextAction := "complete"
          nextAgent := none
          needsModeSwitch := false
          previewContext := none }
      else if gatingAgent st.phase = some agentId then
        let s := score.getD 0
        if PHASE_SCORE_THRESHOLD ≤ s then
          if st.phase = "build" then
            { state := { st1 with currentAgent := none }
              nextAction := "user_preview"
              nextAgent := none
              needsModeSwitch := false
              previewContext := some s }
          else
            let tgt := (nextPhase st.phase).getD st.phase
            let first := (phaseAgents st.isGreenfield tgt).head?
            { state := { st1 with
                phase := tgt
                currentAgent := first
                modeTransitions := st1.modeTransitions ++
                  [{ src := st.phase, dst := tgt, trigger := "autonomous",
                     timestamp := now }] }
              nextAction := "advance_phase"
              nextAgent := first
              needsModeSwitch := true
              previewContext := none }
        else
          { state := st1
            nextAction := "wait"
            nextAgent := none
            needsModeSwitch := false
            previewContext := none }
      else
        { state := st1
          nextAction := "wait"
          nextAgent := none
          needsModeSwitch := false
          previewContext := none }

/-! ## Checkpoint Store & Autonomous Build Loop (src/unnamed/part_008)

`runBuildLoop` itself is in the repository snapshot; the helper module
`build-state.js` it imports (`createBuildState`, `updateCheckpoint`,
`getNextPendingTask`, `isTaskExhausted`, `isTimedOut`, `startBuild`,
`completeBuild`, `failBuild`) is not, so those helpers are modelled
from the specification (spec.md §3 and §4.4), with the per-task
attempt ceiling and the global timeout threaded as explicit limits. -/

/-- One checkpoint `{taskId, status, attempts, lastAttempt, output,
error}`. -/
structure Checkpoint where
  taskId : String
  status : String
  attempts : Nat
  lastAttempt : Option Nat
  output : Option String
  error : Option String
deriving DecidableEq

/-- The `BuildState` record `{sessionId, status, checkpoints,
totalAttempts, startedAt, lastCheckpoint}` plus the failure reason the
loop records via `failBuild`. -/
structure BuildState where
  sessionId : String
  status : String
  checkpoints : List Checkpoint
  totalAttempts : Nat
  startedAt : Nat
  lastCheckpoint : Option Nat
  failReason : Option String
deriving DecidableEq

/-- Modelled from the spec: the configured per-task attempt ceiling
and global timeout of build-state.js, threaded explicitly. -/
structure BuildLimits where
  maxTaskAttempts : Nat
  globalTimeout : Nat
deriving DecidableEq

/-- Outcome of one call of the injected asynchronous executor: either
a returned `{success, output}` record or a thrown error carrying an
optional message. -/
inductive ExecOutcome where
  | ok (success : Bool) (output : Option String)
  | raised (message : Option String)
deriving DecidableEq

/-- Truncation with fallback, embedding the
`value?.slice(0, n) || 'default'` pattern of runBuildLoop (an absent
or empty string falls back to the default). -/
def truncOr (value : Option String) (n : Nat) (dflt : String) : String :=
  match value with
  | none => dflt
  | some s => if s.data.isEmpty then dflt else String.mk (s.data.take n)

/-- A patch as passed to `updateCheckpoint(state, taskId, fields)`:
absent fields are untouched, `some none` on an optional field stores
null (the source clears `error` that way on success). -/
structure CheckpointPatch where
  status : Option String
  attempts : Option Nat
  lastAttempt : Option (Option Nat)
  output : Option (Option String)
  error : Option (Option String)

/-- A patch with no fields set. -/
def emptyPatch : CheckpointPatch :=
  { status := none, attempts := none, lastAttempt := none,
    output := none, error := none }

/-- Application of a patch to one checkpoint record. -/
def applyPatch (c : Checkpoint) (p : CheckpointPatch) : Checkpoint :=
  { c with
      status := p.status.getD c.status
      attempts := p.attempts.getD c.attempts
      lastAttempt := p.lastAttempt.getD c.lastAttempt
      output := p.output.getD c.output
      error := p.error.getD c.error }

/-- Modelled from the spec: `updateCheckpoint(state, taskId, fields)`
patches the checkpoint(s) recorded under `taskId`. -/
def updateCheckpoint (st : BuildState) (taskId : String) (p : CheckpointPatch) :
    BuildState :=
  { st with checkpoints :=
      st.checkpoints.map (fun c => if c.taskId = taskId then applyPatch c p else c) }

/-- Modelled from the spec: `getNextPendingTask` picks the next
checkpoint that is not yet completed or terminally failed, in task
order. -/
def getNextPendingTask (st : BuildState) : Option Checkpoint :=
  st.checkpoints.find? (fun c => ¬ (c.status = "completed" ∨ c.status = "failed"))

/-- Modelled from the spec: `isTaskExhausted` — the checkpoint's
attempt count already exceeds the configured per-task maximum. -/
def isTaskExhausted (limits : BuildLimits) (c : Checkpoint) : Bool :=
  limits.maxTaskAttempts < c.attempts

/-- Modelled from the spec: `isTimedOut` — elapsed time exceeds the
configured global timeout.  The clock reading is the `now`
parameter. -/
def isTimedOut (limits : BuildLimits) (st : BuildState) (now : Nat) : Bool :=
  limits.globalTimeout < now - st.startedAt

/-- Modelled from the spec: `completeBuild` marks the whole build
completed. -/
def completeBuild (st : BuildState) : BuildState :=
  { st with status := "completed" }

/-- Modelled from the spec: `failBuild` marks the whole build failed
and records the reason. -/
def failBuild (st : BuildState) (reason : String) : BuildState :=
  { st with status := "failed", failReason := some reason }

/-- Modelled from the spec: `createBuildState(taskIds)` — one pending
checkpoint per task, in the given order. -/
def createBuildState (taskIds : List String) (now : Nat) : BuildState :=
  { sessionId := "build"
    status := "pending"
    checkpoints := taskIds.map (fun t =>
      { taskId := t, status := "pending", attempts := 0, lastAttempt := none,
        output := none, error := none })
    totalAttempts := 0
    startedAt := now
    lastCheckpoint := none
    failReason := none }

/-- One iteration of the `while (true)` body of `runBuildLoop`
(src/unnamed/part_008 lines 102-183).  The returned flag is `true`
when the loop continues and `false` when it breaks.  Persistence
(`saveBuildState`) is a whole-record write with no effect on the
in-memory state, so it does not appear. -/
def buildLoopStep (limits : BuildLimits) (exec : String → ExecOutcome)
    (st : BuildState) (now : Nat) : BuildState × Bool :=
  if isTimedOut limits st now then
    (failBuild st "Global timeout exceeded", false)
  else
    match getNextPendingTask st with
    | none =>
        if st.checkpoints.any (fun c => c.status = "failed") then
          (failBuild st "Some tasks failed", false)
        else
          (completeBuild st, false)
    | some c =>
        if isTaskExhausted limits c then
          (updateCheckpoint st c.taskId
            { emptyPatch with
                status := some "failed"
                error := some (some ("Exceeded max iterations (" ++
                  toString c.attempts ++ ")")) }, true)
        else
          let st1 := updateCheckpoint st c.taskId
            { emptyPatch with
                status := some "in_progress"
                attempts := some (c.attempts + 1)
                lastAttempt := some (some now) }
          match exec c.taskId with
          | .ok true out =>
              (updateCheckpoint st1 c.taskId
                { emptyPatch with
                    status := some "completed"
                    output := some (some (truncOr out 1000 "Completed"))
                    error := some none }, true)
          | .ok false out =>
              (updateCheckpoint st1 c.taskId
                { emptyPatch with
                    status := some "in_progress"
                    error := some (some (truncOr out 500 "Task failed")) }, true)
          | .raised msg =>
              (updateCheckpoint st1 c.taskId
                { emptyPatch with
                    status := some "in_progress"
                    error := some (some (truncOr msg 500 "Execution error")) }, true)

/-- The iterated loop with explicit fuel; the JavaScript loop runs
until a break, which the exhaustion and timeout checks guarantee. -/
def runBuildLoopFuel (limits : BuildLimits) (exec : String → ExecOutcome) :
    Nat → BuildState → Nat → BuildState
  | 0, st, _ => st
  | fuel + 1, st, now =>
      match buildLoopStep limits exec st now with
      | (st1, false) => st1
      | (st1, true) => runBuildLoopFuel limits exec fuel st1 (now + 1)

/-! ## Executor Spawner & Isolation Validator (src/terminal/isolation.js,
src/terminal/spawner.js)

Neither implementation file is in the repository snapshot; only the
spawner test suite is.  The definitions below are modelled from the
specification (spec.md §4.3), with the concrete facts the tests pin
down: `dev` and `qa-implementation` share a write scope (both work the
source tree, `CHATI_WRITE_SCOPE` of `dev` includes `src/`), while
`architect`, `ux` and `phases` are pairwise disjoint. -/

/-- A spawn config as seen by the isolation validator; only the agent
identity matters for scope derivation. -/
structure SpawnCfg where
  agent : String
deriving DecidableEq

/-- Modelled from the spec: the write scope — a resource-region
descriptor derived from the agent identity.  An implementation agent
and its verification agent share the source tree; planning agents own
disjoint document regions; unknown agents fall back to a region named
after themselves. -/
def agentWriteScope (agent : String) : String :=
  if agent = "dev" then "src/"
  else if agent = "qa-implementation" then "src/"
  else if agent = "greenfield-wu" then "docs/warmup/"
  else if agent = "brownfield-wu" then "docs/warmup/"
  else if agent = "brief" then "docs/brief/"
  else if agent = "detail" then "docs/prd/"
  else if agent = "architect" then "docs/architecture/"
  else if agent = "ux" then "docs/ux/"
  else if agent = "phases" then "docs/phases/"
  else if agent = "tasks" then "docs/tasks/"
  else if agent = "qa-planning" then "docs/qa/"
  else if agent = "devops" then "deploy/"
  else "work/" ++ agent ++ "/"

/-- Modelled from the spec: two resource-region descriptors intersect
when one is a path prefix of the other. -/
def scopesIntersect (a b : String) : Bool :=
  strStartsWith a b || strStartsWith b a

/-- The `{valid, conflicts}` record returned by
`validateWriteScopes`. -/
structure ScopeValidation where
  valid : Bool
  conflicts : List (String × String)
deriving DecidableEq

/-- All conflicting agent pairs among the batch, each earlier config
checked against every later one. -/
def collectScopeConflicts : List SpawnCfg → List (String × String)
  | [] => []
  | c :: rest =>
      (rest.filter (fun d =>
          scopesIntersect (agentWriteScope c.agent) (agentWriteScope d.agent))).map
        (fun d => (c.agent, d.agent))
        ++ collectScopeConflicts rest

/-- Modelled from the spec: `validateWriteScopes(configs)` returns
`valid = false` exactly when some two configs' write scopes
intersect, together with the conflicting pairs. -/
def validateWriteScopes (configs : List SpawnCfg) : ScopeValidation :=
  let conflicts := collectScopeConflicts configs
  { valid := conflicts.isEmpty, conflicts := conflicts }

/-! ## Environment sanitization (src/terminal/spawner.js, modelled)

`cleanParentEnv` lives in the missing spawner module; the deny-list
below is modelled from the specification and the names its test suite
fixes: the exact name `CLAUDECODE`, the prefixes `CLAUDE_CODE_` and
`CLAUDE_AGENT_SDK_`, with the credential variables `CLAUDE_API_KEY`
and `ANTHROPIC_API_KEY` explicitly preserved. -/

/-- Modelled from the spec: exact-name deny-list entries. -/
def envDenyExact : List String := ["CLAUDECODE"]

/-- Modelled from the spec: prefix deny-list entries. -/
def envDenyPrefixes : List String := ["CLAUDE_CODE_", "CLAUDE_AGENT_SDK_"]

/-- Modelled from the spec: credential variables preserved regardless
of naming coincidence. -/
def envPreserve : List String := ["CLAUDE_API_KEY", "ANTHROPIC_API_KEY"]

/-- Whether one variable name falls to the deny-list: never when it is
an explicitly preserved credential, otherwise on an exact-name or
prefix match. -/
def isDeniedEnvVar (k : String) : Bool :=
  if envPreserve.contains k then false
  else envDenyExact.contains k || envDenyPrefixes.any (fun p => strStartsWith k p)

/-- Modelled from the spec: `cleanParentEnv(env)` builds a new mapping
holding every entry of the input whose name is not denied; the input
is not mutated (the embedding is a pure function on association
lists). -/
def cleanParentEnv (env : List (String × String)) : List (String × String) :=
  env.filter (fun p => ! isDeniedEnvVar p.1)

end ChatiDev

namespace ChatiDev

/-! ## Supporting lemmas for the LogBuffer invariant -/

/-- Appending one call to a buffer holding the last `m` entries of `l`
yields the last `m` entries of `l` extended with that call's entries. -/
theorem append_lastN (m : Nat) (l : List LogEntry) (x : JsVal) (stream : String)
    (now : Nat) :
    (LogBuffer.mk (lastN m l) m).append x stream now
      = LogBuffer.mk (lastN m (l ++ entriesOf [(x, stream, now)])) m := by
  cases x with
  | nonStr => simp [LogBuffer.append, entriesOf]
  | str s =>
    have hsingle : entriesOf [(JsVal.str s, stream, now)]
        = [{ line := strTrim s, stream := stream, timestamp := now }] := by
      simp [entriesOf]
    rw [hsingle]
    set e : LogEntry := { line := strTrim s, stream := stream, timestamp := now } with he
    show (if m < (lastN m l ++ [e]).length then
            LogBuffer.mk (lastN m l ++ [e]).tail m
          else LogBuffer.mk (lastN m l ++ [e]) m)
        = LogBuffer.mk (lastN m (l ++ [e])) m
    have hLlen : (lastN m l).length = l.length - (l.length - m) := by
      simp [lastN]
    by_cases hml : l.length < m
    · have hnot : ¬ m < (lastN m l ++ [e]).length := by
        simp only [List.length_append, List.length_cons, List.length_nil, hLlen]
        omega
      rw [if_neg hnot]
      have h1 : lastN m l = l := by
        unfold lastN
        rw [Nat.sub_eq_zero_of_le (le_of_lt hml), List.drop_zero]
      have h2 : lastN m (l ++ [e]) = l ++ [e] := by
        unfold lastN
        simp only [List.length_append, List.length_cons, List.length_nil]
        have hz : l.length + (0 + 1) - m = 0 := by omega
        rw [hz, List.drop_zero]
      rw [h1, h2]
    · push_neg at hml
      have hfull : (lastN m l).length = m := by omega
      have hover : m < (lastN m l ++ [e]).length := by
        simp only [List.length_append, List.length_cons, List.length_nil, hfull]
        omega
      rw [if_pos hover]
      refine congrArg (fun t => LogBuffer.mk t m) ?_
      rcases Nat.eq_zero_or_pos m with hm0 | hmpos
      · subst hm0
        have h1 : lastN 0 l = [] := by
          unfold lastN
          rw [Nat.sub_zero, List.drop_length]
        have h2 : lastN 0 (l ++ [e]) = [] := by
          unfold lastN
          rw [Nat.sub_zero, List.drop_length]
        rw [h1, h2]
        rfl
      · have hle : l.length - m + 1 ≤ l.length := by omega
        have htail : (lastN m l ++ [e]).tail = (lastN m l).tail ++ [e] := by
          cases hml' : lastN m l with
          | nil => rw [hml'] at hfull; simp at hfull; omega
          | cons a t => simp
        rw [htail]
        have hdroptail : (lastN m l).tail = l.drop (l.length - m + 1) := by
          unfold lastN
          rw [← List.drop_one, List.drop_drop]
        rw [hdroptail, ← List.drop_append_of_le_length hle]
        unfold lastN
        congr 1
        simp only [List.length_append, List.length_cons, List.length_nil]
        omega

/-- Folding a whole input sequence over a buffer holding the last `m`
entries of `l` keeps the buffer at the last `m` entries of the growing
log. -/
theorem appendAll_lastN (inputs : List (JsVal × String × Nat)) :
    ∀ (m : Nat) (l : List LogEntry),
      (LogBuffer.mk (lastN m l) m).appendAll inputs
        = LogBuffer.mk (lastN m (l ++ entriesOf inputs)) m := by
  induction inputs with
  | nil => intro m l; simp [LogBuffer.appendAll, entriesOf]
  | cons i rest ih =>
    intro m l
    have hstep := append_lastN m l i.1 i.2.1 i.2.2
    have hsplit : entriesOf (i :: rest) = entriesOf [(i.1, i.2.1, i.2.2)] ++ entriesOf rest := by
      rcases i with ⟨v, stream, now⟩
      cases v <;> simp [entriesOf, List.filterMap_cons]
    calc (LogBuffer.mk (lastN m l) m).appendAll (i :: rest)
        = ((LogBuffer.mk (lastN m l) m).append i.1 i.2.1 i.2.2).appendAll rest := by
          simp [LogBuffer.appendAll]
      _ = (LogBuffer.mk (lastN m (l ++ entriesOf [(i.1, i.2.1, i.2.2)])) m).appendAll rest := by
          rw [hstep]
      _ = LogBuffer.mk (lastN m ((l ++ entriesOf [(i.1, i.2.1, i.2.2)]) ++ entriesOf rest)) m := ih m _
      _ = LogBuffer.mk (lastN m (l ++ entriesOf (i :: rest))) m := by
          rw [hsplit, List.append_assoc]

/-! ## Claim theorem for the LogBuffer -/

/-- C10: for every capacity and every sequence of `append` calls
starting from a fresh buffer, the size never exceeds the capacity and
`getAll` returns exactly the most recent at-most-`maxLines` entries in
insertion order; appending a non-string value leaves any buffer
unchanged, and appending a string to a full buffer of positive
capacity evicts exactly the oldest entry. -/
theorem logBuffer_bounded_spec (m : Nat) (inputs : List (JsVal × String × Nat)) :
    ((LogBuffer.empty m).appendAll inputs).size ≤ m ∧
    ((LogBuffer.empty m).appendAll inputs).getAll = lastN m (entriesOf inputs) ∧
    (∀ (b : LogBuffer) (stream : String) (now : Nat),
      b.append JsVal.nonStr stream now = b) ∧
    (∀ (b : LogBuffer) (s stream : String) (now : Nat),
      b.lines.length = b.maxLines → 0 < b.maxLines →
      (b.append (JsVal.str s) stream now).lines
        = b.lines.tail ++ [{ line := strTrim s, stream := stream, timestamp := now }]) := by
  have hmain : (LogBuffer.empty m).appendAll inputs
      = LogBuffer.mk (lastN m (entriesOf inputs)) m := by
    have h0 : LogBuffer.empty m = LogBuffer.mk (lastN m []) m := by
      simp [LogBuffer.empty, lastN]
    rw [h0]
    simpa using appendAll_lastN inputs m []
  refine ⟨?_, ?_, ?_, ?_⟩
  · rw [hmain]
    simp only [LogBuffer.size, lastN, List.length_drop]
    omega
  · rw [hmain]
    rfl
  · intro b stream now
    rfl
  · intro b s stream now hfull hpos
    have hover : b.maxLines <
        (b.lines ++ [LogEntry.mk (strTrim s) stream now]).length := by
      simp only [List.length_append, List.length_cons, List.length_nil]
      omega
    simp only [LogBuffer.append, if_pos hover]
    cases hbl : b.lines with
    | nil => rw [hbl] at hfull; simp at hfull; omega
    | cons a t => simp

/-- Witness for C10: a capacity-2 buffer fed four appends keeps at
most two entries, and a full buffer evicts its oldest entry on the
next string append. -/
theorem logBuffer_bounded_spec_witness :
    ((LogBuffer.empty 2).appendAll
      [(JsVal.str "a", "stdout", 0), (JsVal.nonStr, "stdout", 1),
       (JsVal.str "b", "stderr", 2), (JsVal.str " c ", "stdout", 3)]).size ≤ 2 ∧
    ((LogBuffer.mk [⟨"a", "stdout", 0⟩, ⟨"b", "stdout", 1⟩] 2).append
        (JsVal.str " d ") "stdout" 4).lines
      = [⟨"b", "stdout", 1⟩, ⟨"d", "stdout", 4⟩] := by
  constructor
  · exact (logBuffer_bounded_spec 2
      [(JsVal.str "a", "stdout", 0), (JsVal.nonStr, "stdout", 1),
       (JsVal.str "b", "stderr", 2), (JsVal.str " c ", "stdout", 3)]).1
  · have h := (logBuffer_bounded_spec 2 []).2.2.2
      (LogBuffer.mk [⟨"a", "stdout", 0⟩, ⟨"b", "stdout", 1⟩] 2)
      " d " "stdout" 4 (by decide) (by decide)
    exact h.trans (by decide)

/-! ## Supporting lemma for the isolation validator -/

/-- The conflict list is empty exactly when the batch's write scopes
are pairwise disjoint. -/
theorem collectScopeConflicts_eq_nil (l : List SpawnCfg) :
    collectScopeConflicts l = [] ↔
      l.Pairwise (fun c d =>
        scopesIntersect (agentWriteScope c.agent) (agentWriteScope d.agent) = false) := by
  induction l with
  | nil => simp [collectScopeConflicts]
  | cons c rest ih =>
    simp only [collectScopeConflicts, List.append_eq_nil, List.map_eq_nil_iff,
      List.filter_eq_nil_iff, List.pairwise_cons, ih]
    constructor
    · rintro ⟨h1, h2⟩
      exact ⟨fun d hd => Bool.not_eq_true _ ▸ h1 d hd, h2⟩
    · rintro ⟨h1, h2⟩
      refine ⟨fun d hd => ?_, h2⟩
      rw [h1 d hd]
      simp

/-! ## Supporting lemma for checkpoint updates -/

/-- A member of the patched checkpoint list that carries the patched
task id is the patch applied to some original member with that id. -/
theorem updateCheckpoint_mem (st : BuildState) (tid : String) (p : CheckpointPatch)
    (c' : Checkpoint) (hmem : c' ∈ (updateCheckpoint st tid p).checkpoints)
    (htid : c'.taskId = tid) :
    ∃ a ∈ st.checkpoints, a.taskId = tid ∧ c' = applyPatch a p := by
  simp only [updateCheckpoint, List.mem_map] at hmem
  obtain ⟨a, ha, hfa⟩ := hmem
  by_cases h : a.taskId = tid
  · refine ⟨a, ha, h, ?_⟩
    rw [← hfa, if_pos h]
  · exfalso
    rw [if_neg h] at hfa
    exact h (hfa ▸ htid)

/-! ## Claim theorems for the build loop -/

/-- C5: when the picked checkpoint's executor call reports failure or
throws, the loop body leaves that checkpoint `in_progress` — still
selectable by `getNextPendingTask` on the next iteration — records the
truncated error string on it, and continues the loop. -/
theorem buildLoopStep_failure_retry (limits : BuildLimits)
    (exec : String → ExecOutcome) (st : BuildState) (now : Nat) (c : Checkpoint)
    (out msg : Option String)
    (hnt : isTimedOut limits st now = false)
    (hpick : getNextPendingTask st = some c)
    (hnx : isTaskExhausted limits c = false) :
    (exec c.taskId = ExecOutcome.ok false out →
      ∀ c' ∈ (buildLoopStep limits exec st now).1.checkpoints,
        c'.taskId = c.taskId →
          c'.status = "in_progress" ∧
          c'.error = some (truncOr out 500 "Task failed") ∧
          ¬ (c'.status = "completed" ∨ c'.status = "failed")) ∧
    (exec c.taskId = ExecOutcome.raised msg →
      ∀ c' ∈ (buildLoopStep limits exec st now).1.checkpoints,
        c'.taskId = c.taskId →
          c'.status = "in_progress" ∧
          c'.error = some (truncOr msg 500 "Execution error") ∧
          ¬ (c'.status = "completed" ∨ c'.status = "failed")) ∧
    ((exec c.taskId = ExecOutcome.ok false out ∨
        exec c.taskId = ExecOutcome.raised msg) →
      (buildLoopStep limits exec st now).2 = true) := by
  refine ⟨fun hexec c' hmem htid => ?_, fun hexec c' hmem htid => ?_, fun hexec => ?_⟩
  · have hstep : (buildLoopStep limits exec st now).1
        = updateCheckpoint
            (updateCheckpoint st c.taskId
              { emptyPatch with
                  status := some "in_progress"
                  attempts := some (c.attempts + 1)
                  lastAttempt := some (some now) })
            c.taskId
            { emptyPatch with
                status := some "in_progress"
                error := some (some (truncOr out 500 "Task failed")) } := by
      simp [buildLoopStep, hnt, hpick, hnx, hexec]
    rw [hstep] at hmem
    obtain ⟨a, _, _, hc'⟩ := updateCheckpoint_mem _ _ _ _ hmem htid
    subst hc'
    simp [applyPatch, emptyPatch]
  · have hstep : (buildLoopStep limits exec st now).1
        = updateCheckpoint
            (updateCheckpoint st c.taskId
              { emptyPatch with
                  status := some "in_progress"
                  attempts := some (c.attempts + 1)
                  lastAttempt := some (some now) })
            c.taskId
            { emptyPatch with
                status := some "in_progress"
                error := some (some (truncOr msg 500 "Execution error")) } := by
      simp [buildLoopStep, hnt, hpick, hnx, hexec]
    rw [hstep] at hmem
    obtain ⟨a, _, _, hc'⟩ := updateCheckpoint_mem _ _ _ _ hmem htid
    subst hc'
    simp [applyPatch, emptyPatch]
  · rcases hexec with hexec | hexec <;>
      simp [buildLoopStep, hnt, hpick, hnx, hexec]

/-- Witness for C5: a one-task build whose executor reports failure
(or, on a second run, throws) leaves the task `in_progress` with the
truncated message recorded, and the loop keeps going. -/
theorem buildLoopStep_failure_retry_witness :
    (∃ c', c' ∈ (buildLoopStep ⟨3, 1000⟩ (fun _ => ExecOutcome.ok false (some "boom"))
        (createBuildState ["t1"] 0) 5).1.checkpoints ∧
      c'.status = "in_progress" ∧ c'.error = some "boom") ∧
    (∃ c', c' ∈ (buildLoopStep ⟨3, 1000⟩ (fun _ => ExecOutcome.raised (some "kaput"))
        (createBuildState ["t1"] 0) 5).1.checkpoints ∧
      c'.status = "in_progress" ∧ c'.error = some "kaput") := by
  constructor
  · have h0 := (buildLoopStep_failure_retry ⟨3, 1000⟩
      (fun _ => ExecOutcome.ok false (some "boom")) (createBuildState ["t1"] 0) 5
      ⟨"t1", "pending", 0, none, none, none⟩ (some "boom") none
      (by decide) (by decide) (by decide)).1 rfl
    have hmem : (⟨"t1", "in_progress", 1, some 5, none, some "boom"⟩ : Checkpoint)
        ∈ (buildLoopStep ⟨3, 1000⟩ (fun _ => ExecOutcome.ok false (some "boom"))
            (createBuildState ["t1"] 0) 5).1.checkpoints := by
      decide
    have h := h0 ⟨"t1", "in_progress", 1, some 5, none, some "boom"⟩ hmem rfl
    exact ⟨_, hmem, h.1, h.2.1.trans (by decide)⟩
  · have h0 := (buildLoopStep_failure_retry ⟨3, 1000⟩
      (fun _ => ExecOutcome.raised (some "kaput")) (createBuildState ["t1"] 0) 5
      ⟨"t1", "pending", 0, none, none, none⟩ none (some "kaput")
      (by decide) (by decide) (by decide)).2.1 rfl
    have hmem : (⟨"t1", "in_progress", 1, some 5, none, some "kaput"⟩ : Checkpoint)
        ∈ (buildLoopStep ⟨3, 1000⟩ (fun _ => ExecOutcome.raised (some "kaput"))
            (createBuildState ["t1"] 0) 5).1.checkpoints := by
      decide
    have h := h0 ⟨"t1", "in_progress", 1, some 5, none, some "kaput"⟩ hmem rfl
    exact ⟨_, hmem, h.1, h.2.1.trans (by decide)⟩

/-- C6: a picked checkpoint whose attempt count already exceeds the
per-task maximum is marked `failed` with an exhaustion message, the
executor is not invoked (the step is the same for every executor), the
loop continues, and the overall build status is untouched. -/
theorem buildLoopStep_exhausted (limits : BuildLimits)
    (exec : String → ExecOutcome) (st : BuildState) (now : Nat) (c : Checkpoint)
    (hnt : isTimedOut limits st now = false)
    (hpick : getNextPendingTask st = some c)
    (hx : isTaskExhausted limits c = true) :
    (∀ c' ∈ (buildLoopStep limits exec st now).1.checkpoints,
      c'.taskId = c.taskId →
        c'.status = "failed" ∧
        c'.error = some ("Exceeded max iterations (" ++ toString c.attempts ++ ")")) ∧
    (buildLoopStep limits exec st now).2 = true ∧
    (buildLoopStep limits exec st now).1.status = st.status ∧
    (∀ exec2 : String → ExecOutcome,
      buildLoopStep limits exec2 st now = buildLoopStep limits exec st now) := by
  have hstep : ∀ e : String → ExecOutcome, buildLoopStep limits e st now
      = (updateCheckpoint st c.taskId
          { emptyPatch with
              status := some "failed"
              error := some (some ("Exceeded max iterations (" ++
                toString c.attempts ++ ")")) }, true) := by
    intro e
    simp [buildLoopStep, hnt, hpick, hx]
  refine ⟨fun c' hmem htid => ?_, ?_, ?_, fun exec2 => ?_⟩
  · rw [hstep exec] at hmem
    obtain ⟨a, _, _, hc'⟩ := updateCheckpoint_mem _ _ _ _ hmem htid
    subst hc'
    simp [applyPatch, emptyPatch]
  · rw [hstep exec]
  · rw [hstep exec]
    rfl
  · rw [hstep exec, hstep exec2]

/-- Witness for C6: a one-task build whose checkpoint already has four
attempts against a ceiling of three is marked failed without running
the executor, and the build itself keeps its status. -/
theorem buildLoopStep_exhausted_witness :
    (∃ c', c' ∈ (buildLoopStep ⟨3, 1000⟩ (fun _ => ExecOutcome.ok true none)
        { sessionId := "build", status := "running",
          checkpoints := [⟨"t1", "pending", 4, none, none, none⟩],
          totalAttempts := 4, startedAt := 0, lastCheckpoint := none,
          failReason := none } 5).1.checkpoints ∧
      c'.status = "failed" ∧ c'.error = some "Exceeded max iterations (4)") ∧
    (buildLoopStep ⟨3, 1000⟩ (fun _ => ExecOutcome.ok true none)
        { sessionId := "build", status := "running",
          checkpoints := [⟨"t1", "pending", 4, none, none, none⟩],
          totalAttempts := 4, startedAt := 0, lastCheckpoint := none,
          failReason := none } 5).1.status = "running" := by
  have h := buildLoopStep_exhausted ⟨3, 1000⟩ (fun _ => ExecOutcome.ok true none)
    { sessionId := "build", status := "running",
      checkpoints := [⟨"t1", "pending", 4, none, none, none⟩],
      totalAttempts := 4, startedAt := 0, lastCheckpoint := none,
      failReason := none } 5 ⟨"t1", "pending", 4, none, none, none⟩
    (by decide) (by decide) (by decide)
  have hmem : (⟨"t1", "failed", 4, none, none,
      some "Exceeded max iterations (4)"⟩ : Checkpoint)
      ∈ (buildLoopStep ⟨3, 1000⟩ (fun _ => ExecOutcome.ok true none)
          { sessionId := "build", status := "running",
            checkpoints := [⟨"t1", "pending", 4, none, none, none⟩],
            totalAttempts := 4, startedAt := 0, lastCheckpoint := none,
            failReason := none } 5).1.checkpoints := by
    decide
  have hc := h.1 ⟨"t1", "failed", 4, none, none,
    some "Exceeded max iterations (4)"⟩ hmem rfl
  exact ⟨⟨_, hmem, hc.1, hc.2.trans (by decide)⟩, h.2.2.1⟩

/-! ## Claim theorems for the isolation validator and env sanitizer -/

/-- C7: `validateWriteScopes` returns `valid = false` if and only if
the write scopes of some two configs in the batch intersect; in
particular `dev` with its own verification agent is rejected, while
three unrelated planning agents are accepted. -/
theorem validateWriteScopes_spec :
    (∀ configs : List SpawnCfg,
      ((validateWriteScopes configs).valid = false ↔
        ∃ i j : Fin configs.length, i < j ∧
          scopesIntersect (agentWriteScope (configs.get i).agent)
            (agentWriteScope (configs.get j).agent) = true)) ∧
    (validateWriteScopes [⟨"dev"⟩, ⟨"qa-implementation"⟩]).valid = false ∧
    (validateWriteScopes [⟨"architect"⟩, ⟨"ux"⟩, ⟨"phases"⟩]).valid = true := by
  refine ⟨fun configs => ?_, by decide, by decide⟩
  have hnil := collectScopeConflicts_eq_nil configs
  constructor
  · intro hv
    by_contra hno
    push_neg at hno
    have hpw : configs.Pairwise (fun c d =>
        scopesIntersect (agentWriteScope c.agent) (agentWriteScope d.agent) = false) := by
      refine List.pairwise_iff_get.mpr (fun i j hij => ?_)
      have h := hno i j hij
      cases hb : scopesIntersect (agentWriteScope (configs.get i).agent)
          (agentWriteScope (configs.get j).agent) with
      | false => rfl
      | true => exact absurd hb h
    have hempty := hnil.mpr hpw
    simp [validateWriteScopes, hempty] at hv
  · rintro ⟨i, j, hij, hint⟩
    cases hvb : (validateWriteScopes configs).valid with
    | false => rfl
    | true =>
      have hempty : collectScopeConflicts configs = [] := by
        have : (collectScopeConflicts configs).isEmpty = true := by
          simpa [validateWriteScopes] using hvb
        exact List.isEmpty_iff.mp this
      have hpw := hnil.mp hempty
      have hfalse := List.pairwise_iff_get.mp hpw i j hij
      rw [hfalse] at hint
      exact absurd hint (by simp)

/-- C9: `cleanParentEnv` keeps exactly the input entries whose name is
not on the deny-list; every exact `CLAUDECODE` match and every
`CLAUDE_CODE_`- or `CLAUDE_AGENT_SDK_`-prefixed name is denied, while
the credential names `CLAUDE_API_KEY` and `ANTHROPIC_API_KEY` are
never denied; the input mapping itself is untouched (the function
builds a new list and is pure). -/
theorem cleanParentEnv_spec (env : List (String × String)) :
    (∀ k v : String, ((k, v) ∈ cleanParentEnv env) ↔
      ((k, v) ∈ env ∧ isDeniedEnvVar k = false)) ∧
    (∀ k : String,
      (k = "CLAUDECODE" ∨ strStartsWith k "CLAUDE_CODE_" = true ∨
        strStartsWith k "CLAUDE_AGENT_SDK_" = true) →
      isDeniedEnvVar k = true) ∧
    isDeniedEnvVar "CLAUDE_API_KEY" = false ∧
    isDeniedEnvVar "ANTHROPIC_API_KEY" = false := by
  refine ⟨fun k v => ?_, fun k hk => ?_, by decide, by decide⟩
  · simp [cleanParentEnv, List.mem_filter]
  · have hkp : envPreserve.contains k = false := by
      cases hc : envPreserve.contains k with
      | false => rfl
      | true =>
        exfalso
        have hkmem : k ∈ envPreserve := by
          simpa using hc
        have : k = "CLAUDE_API_KEY" ∨ k = "ANTHROPIC_API_KEY" := by
          simpa [envPreserve] using hkmem
        rcases this with h | h <;> subst h <;>
          rcases hk with h' | h' | h' <;> revert h' <;> decide
    have hknm : k ∉ envPreserve := by
      simpa using hkp
    rcases hk with h | h | h
    · subst h; decide
    · simp [isDeniedEnvVar, hkp, hknm, envDenyPrefixes, h]
    · simp [isDeniedEnvVar, hkp, hknm, envDenyPrefixes, h]

/-- Witness for C9: a prefixed runtime variable is denied, and
membership in the cleaned mapping of a concrete environment is
characterized as the claim states. -/
theorem cleanParentEnv_spec_witness :
    isDeniedEnvVar "CLAUDE_CODE_ENTRYPOINT" = true ∧
    ((("PATH", "/usr/bin") ∈
        cleanParentEnv [("PATH", "/usr/bin"), ("CLAUDECODE", "1")]) ↔
      ((("PATH", "/usr/bin") ∈
          ([("PATH", "/usr/bin"), ("CLAUDECODE", "1")] : List (String × String))) ∧
        isDeniedEnvVar "PATH" = false)) := by
  constructor
  · exact (cleanParentEnv_spec []).2.1 "CLAUDE_CODE_ENTRYPOINT"
      (Or.inr (Or.inl (by decide)))
  · exact (cleanParentEnv_spec [("PATH", "/usr/bin"), ("CLAUDECODE", "1")]).1
      "PATH" "/usr/bin"

/-! ## Claim theorems for the pipeline state machine -/

/-- C2 (amended): when a phase's gating agent completes, a score of at
least 95 advances the phase, records an `autonomous` mode transition
and returns `advance_phase` with the new phase's first agent and
`needsModeSwitch = true` — except in the implementation (build) phase,
whose passing gate yields `user_preview` instead; a score below 95
leaves the phase unchanged and returns `wait` in both gated phases. -/
theorem advancePipeline_gate_spec (st stB : PipelineState) (s s' now now' nowB : Nat)
    (hp : st.phase = "plan") (hpB : stB.phase = "build")
    (hs : PHASE_SCORE_THRESHOLD ≤ s) (hs' : s' < PHASE_SCORE_THRESHOLD) :
    ((advancePipeline st "qa-planning" (some s) now).nextAction = "advance_phase" ∧
     (advancePipeline st "qa-planning" (some s) now).state.phase = "build" ∧
     (advancePipeline st "qa-planning" (some s) now).nextAgent = some "dev" ∧
     (advancePipeline st "qa-planning" (some s) now).needsModeSwitch = true ∧
     (advancePipeline st "qa-planning" (some s) now).state.modeTransitions
       = st.modeTransitions ++
         [{ src := "plan", dst := "build", trigger := "autonomous",
            timestamp := now }]) ∧
    ((advancePipeline st "qa-planning" (some s') now').nextAction = "wait" ∧
     (advancePipeline st "qa-planning" (some s') now').state.phase = "plan") ∧
    ((advancePipeline stB "qa-implementation" (some s') nowB).nextAction = "wait" ∧
     (advancePipeline stB "qa-implementation" (some s') nowB).state.phase = "build") := by
  have hsn : ¬ PHASE_SCORE_THRESHOLD ≤ s' := not_le.mpr hs'
  refine ⟨?_, ?_, ?_⟩
  · simp [advancePipeline, hp, phaseAgents, nextAfter, gatingAgent, hs, nextPhase,
      markCompleted]
  · simp [advancePipeline, hp, phaseAgents, nextAfter, gatingAgent, hsn,
      markCompleted]
  · simp [advancePipeline, hpB, phaseAgents, nextAfter, gatingAgent, hsn,
      markCompleted]

/-- Witness for C2 (amended): a plan-phase pipeline whose gate scores
95 advances, while scores of 85 leave the plan and build phases
waiting. -/
theorem advancePipeline_gate_spec_witness :
    (advancePipeline { initPipeline true 0 with phase := "plan" }
      "qa-planning" (some 95) 1).nextAction = "advance_phase" ∧
    (advancePipeline { initPipeline true 0 with phase := "plan" }
      "qa-planning" (some 85) 1).nextAction = "wait" ∧
    (advancePipeline { initPipeline true 0 with phase := "build" }
      "qa-implementation" (some 85) 1).nextAction = "wait" := by
  have h := advancePipeline_gate_spec
    { initPipeline true 0 with phase := "plan" }
    { initPipeline true 0 with phase := "build" }
    95 85 1 1 1 rfl rfl (by decide) (by decide)
  exact ⟨h.1.1, h.2.1.1, h.2.2.1⟩

/-- Counterexample to C2 as frozen: in the build phase the gating
agent `qa-implementation` completing with score 96 does not advance
the phase — the result is `user_preview` and the phase stays at
build. -/
theorem advancePipeline_gate_counterexample :
    (advancePipeline { initPipeline true 0 with phase := "build" }
      "qa-implementation" (some 96) 1).nextAction = "user_preview" ∧
    ¬ ((advancePipeline { initPipeline true 0 with phase := "build" }
        "qa-implementation" (some 96) 1).nextAction = "advance_phase" ∧
       (advancePipeline { initPipeline true 0 with phase := "build" }
        "qa-implementation" (some 96) 1).state.phase = "deploy" ∧
       (advancePipeline { initPipeline true 0 with phase := "build" }
        "qa-implementation" (some 96) 1).needsModeSwitch = true) := by
  decide

/-- C3: when the implementation (build) phase's gating agent completes
with a passing score, the pipeline does not advance to deployment: it
returns `user_preview` with `previewContext.qaScore` equal to the
score, leaves `currentAgent` null and keeps the phase at build. -/
theorem advancePipeline_build_gate_preview (st : PipelineState) (s now : Nat)
    (hp : st.phase = "build") (hs : PHASE_SCORE_THRESHOLD ≤ s) :
    (advancePipeline st "qa-implementation" (some s) now).nextAction = "user_preview" ∧
    (advancePipeline st "qa-implementation" (some s) now).previewContext = some s ∧
    (advancePipeline st "qa-implementation" (some s) now).state.currentAgent = none ∧
    (advancePipeline st "qa-implementation" (some s) now).state.phase = "build" ∧
    (advancePipeline st "qa-implementation" (some s) now).nextAgent = none := by
  simp [advancePipeline, hp, phaseAgents, nextAfter, gatingAgent, hs, markCompleted]

/-- Witness for C3: a concrete build-phase pipeline whose gate scores
96 pauses for user preview with `qaScore = 96`. -/
theorem advancePipeline_build_gate_preview_witness :
    (advancePipeline { initPipeline true 0 with phase := "build" }
      "qa-implementation" (some 96) 1).nextAction = "user_preview" ∧
    (advancePipeline { initPipeline true 0 with phase := "build" }
      "qa-implementation" (some 96) 1).previewContext = some 96 := by
  have h := advancePipeline_build_gate_preview
    { initPipeline true 0 with phase := "build" } 96 1 rfl (by decide)
  exact ⟨h.1, h.2.1⟩

/-! ## Claim theorems for the gate evaluator -/

/-- C1: for every score `s`, threshold `t` and critical-blocker flag
`b`, `determineVerdict s t b` is `blocked` when `b` is true; otherwise
`approved` when `s ≥ t`; otherwise `needs_revision` when
`t - 5 ≤ s < t`; otherwise `blocked`. -/
theorem determineVerdict_spec (s t : Int) (b : Bool) :
    (b = true → determineVerdict s t b = "blocked") ∧
    (b = false → t ≤ s → determineVerdict s t b = "approved") ∧
    (b = false → t - 5 ≤ s → s < t → determineVerdict s t b = "needs_revision") ∧
    (b = false → s < t - 5 → determineVerdict s t b = "blocked") := by
  refine ⟨fun hb => ?_, fun hb hst => ?_, fun hb h5 hlt => ?_, fun hb hlt => ?_⟩
  · simp [determineVerdict, hb, verdictBlocked]
  · simp [determineVerdict, hb, verdictApproved, hst]
  · simp [determineVerdict, hb, verdictNeedsRevision, h5, not_le.mpr hlt]
  · have h1 : ¬ t ≤ s := not_le.mpr (lt_trans hlt (by omega))
    have h2 : ¬ t - 5 ≤ s := not_le.mpr hlt
    simp [determineVerdict, hb, verdictBlocked, h1, h2]

/-- Witness for C1: the four branches of `determineVerdict_spec`
exercised at concrete scores against threshold 95. -/
theorem determineVerdict_spec_witness :
    determineVerdict 100 95 true = "blocked" ∧
    determineVerdict 97 95 false = "approved" ∧
    determineVerdict 92 95 false = "needs_revision" ∧
    determineVerdict 80 95 false = "blocked" := by
  refine ⟨?_, ?_, ?_, ?_⟩
  · exact (determineVerdict_spec 100 95 true).1 rfl
  · exact (determineVerdict_spec 97 95 false).2.1 rfl (by norm_num)
  · exact (determineVerdict_spec 92 95 false).2.2.1 rfl (by norm_num) (by norm_num)
  · exact (determineVerdict_spec 80 95 false).2.2.2 rfl (by norm_num)

/-- C4: whenever a gate evaluation returns an object carrying a
verdict and some warning is flagged critical, that verdict is
`blocked`, regardless of the score. -/
theorem gateEvaluate_critical_blocks (gid gname : String) (deps : AutonomyDeps)
    (mode : String) (validation : Validation) (v : String)
    (hcrit : hasCriticalWarning validation.warnings = true)
    (hv : (gateEvaluate gid gname deps mode validation).verdict = some v) :
    v = "blocked" := by
  by_cases hm : mode = "autonomous"
  · simp only [gateEvaluate, hm, if_pos rfl] at hv
    simp only [hcrit] at hv
    have : determineVerdict deps.gateScore deps.threshold true = v :=
      Option.some.inj hv
    simpa [determineVerdict, verdictBlocked] using this.symm
  · simp [gateEvaluate, hm] at hv

/-- Witness for C4: an autonomous evaluation with a critical warning,
at score 100 and threshold 95, whose verdict is therefore blocked. -/
theorem gateEvaluate_critical_blocks_witness : "blocked" = "blocked" := by
  exact (gateEvaluate_critical_blocks "g1" "Gate" ⟨100, "pass", "proceed", 95⟩
    "autonomous" ⟨100, [], [], ["Critical: schema drift"]⟩ "blocked"
    (by decide) (by decide)).symm ▸ rfl

/-- C8: in human-in-the-loop mode the evaluator never sets
`canProceed` true; in autonomous mode `canProceed` is true exactly when
the verdict is `approved`. -/
theorem gateEvaluate_canProceed_spec (gid gname : String) (deps : AutonomyDeps)
    (validation : Validation) :
    (gateEvaluate gid gname deps "human-in-the-loop" validation).canProceed = false ∧
    ((gateEvaluate gid gname deps "autonomous" validation).canProceed = true ↔
      (gateEvaluate gid gname deps "autonomous" validation).verdict = some "approved") := by
  constructor
  · simp [gateEvaluate]
  · simp only [gateEvaluate, if_pos rfl]
    constructor
    · intro h
      have := of_decide_eq_true h
      simp_all [verdictApproved]
    · intro h
      have := Option.some.inj h
      simp [this, verdictApproved]

end ChatiDev
